import Mathlib

/-!
Verification of the dPad visual's cursor-navigation core (src/src/visual.ts).

The embedding below translates the TypeScript source into Lean:
* `CategoryDataPoint`, `ViewModel`, `VisualSettings` mirror the interfaces of
  visual.ts; the opaque host selection ids (`ISelectionId`) are modelled as
  natural numbers that the core only stores and forwards, never inspects.
* `uniqueCats` mirrors the dedup loops at the top of `Visual.step`.
* `step` mirrors `Visual.step` (visual.ts lines 305-378): the component state
  is the pair (view model, `lastSelected` cursor), and the observable result of
  one call is the new state together with `Option (Option Nat)`:
  `none` when the call returned without touching the selection manager, and
  `some h` when `selectionManager.select(dataPointsToUse[lastSelected].selectionId)`
  was reached, where `h` is the selection id found at that index (`Option Nat`,
  `none` standing for the out-of-range access `dataPointsToUse[i] === undefined`,
  which in JavaScript throws a TypeError at the `.selectionId` projection).
* `visualTransform` mirrors the view-model builder (visual.ts lines 83-191),
  parameterised by the host's selection-id builder `mkId` (column index, row
  index ↦ opaque id), mirroring `createSelectionIdBuilder().withCategory(col, i)`.
* `diagClick` mirrors the diagonal click handlers of the constructor
  (visual.ts lines 257-272): one vertical step followed by one horizontal step.
* JavaScript `Math.floor(a / b)` on integers is `Int.fdiv`.
-/

/-- Mirrors `CategoryDataPoint` of visual.ts; `selectionId` is the opaque host
handle, modelled as a `Nat` the core never inspects. -/
structure CategoryDataPoint where
  category : String
  selectionId : Nat
deriving Repr, DecidableEq

/-- The four fields of the `settings` object of `VisualSettings` in visual.ts. -/
structure SettingsFields where
  horizontal : Bool
  vertical : Bool
  diagonal : Bool
  incremental : Int
deriving Repr, DecidableEq

/-- Mirrors `VisualSettings` of visual.ts (a record with one `settings` field). -/
structure VisualSettings where
  settings : SettingsFields
deriving Repr, DecidableEq

/-- Mirrors the `ViewModel` interface of visual.ts. -/
structure ViewModel where
  horizontalDataPoints : List CategoryDataPoint
  verticalDataPoints : List CategoryDataPoint
  numberOfAxis : Int
  sortedBy : String
  settings : VisualSettings
deriving Repr, DecidableEq

/-- The mutable component state of class `Visual` that `step` touches:
the cached view model and the `lastSelected` cursor. -/
structure VisualState where
  viewModel : ViewModel
  lastSelected : Int
deriving Repr, DecidableEq

/-- Mirrors the dedup loops of `Visual.step` (visual.ts lines 310-323):
collect the categories in first-occurrence order, skipping those already seen
(`indexOf == -1` test before `push`). -/
def uniqueCats (dps : List CategoryDataPoint) : List String :=
  dps.foldl (fun acc p => if acc.contains p.category then acc else acc ++ [p.category]) []

/-- Number of distinct vertical labels of a view model (`uniqueVerticalCount.length`). -/
def uvOf (vm : ViewModel) : Int :=
  ((uniqueCats vm.verticalDataPoints).length : Int)

/-- Number of distinct horizontal labels of a view model (`uniqueHorizontalCount.length`). -/
def uhOf (vm : ViewModel) : Int :=
  ((uniqueCats vm.horizontalDataPoints).length : Int)

/-- The JavaScript array access `l[i].selectionId`: `some id` for an in-range
index, `none` when `l[i]` is `undefined` (out of range), which in the source
crashes with a TypeError at the `.selectionId` projection. -/
def handleAt (l : List CategoryDataPoint) (i : Int) : Option Nat :=
  if 0 ≤ i then (l.get? i.toNat).map (fun p => p.selectionId) else none

/-- Mirrors `Visual.step` (visual.ts lines 305-378).  Returns the state after
the call and the selection-manager interaction: `none` when the call returned
early (bounds failure, empty axis, or no branch matched), `some h` when
`selectionManager.select` was invoked with the lookup result `h`. -/
def step (s : VisualState) (direction : String) (stepArg : Int) : VisualState × Option (Option Nat) :=
  let vm := s.viewModel
  let incremental := vm.settings.settings.incremental
  let incrementalStep := incremental * stepArg
  let uniqueVerticalCount := uniqueCats vm.verticalDataPoints
  let uniqueHorizontalCount := uniqueCats vm.horizontalDataPoints
  let dataPointsToUse := if vm.sortedBy == "horizontal" then vm.horizontalDataPoints
                                                        else vm.verticalDataPoints
  if direction == "v" && vm.sortedBy == "horizontal" then
    let numberOfPoints : Int := vm.verticalDataPoints.length
    if numberOfPoints == 0 then (s, none)
    else
      let currentGroup := s.lastSelected.fdiv (uniqueVerticalCount.length : Int)
      let minGroup := currentGroup * (uniqueVerticalCount.length : Int)
      let maxGroup := (currentGroup + 1) * (uniqueVerticalCount.length : Int) - 1
      if s.lastSelected + incrementalStep < minGroup || s.lastSelected + incrementalStep > maxGroup then (s, none)
      else
        let newSel := s.lastSelected + incrementalStep
        ({ s with lastSelected := newSel }, some (handleAt dataPointsToUse newSel))
  else if direction == "h" && vm.sortedBy == "horizontal" then
    let numberOfPoints : Int := vm.horizontalDataPoints.length
    if numberOfPoints == 0 then (s, none)
    else if vm.verticalDataPoints.length == 0 then
      if s.lastSelected + incrementalStep < 0 || s.lastSelected + incrementalStep > numberOfPoints - 1 then (s, none)
      else
        let newSel := s.lastSelected + incrementalStep
        ({ s with lastSelected := newSel }, some (handleAt dataPointsToUse newSel))
    else
      if s.lastSelected + incrementalStep * (uniqueVerticalCount.length : Int) < 0 || s.lastSelected + incrementalStep * (uniqueVerticalCount.length : Int) > numberOfPoints - 1 then (s, none)
      else
        let newSel := s.lastSelected + incrementalStep * (uniqueVerticalCount.length : Int)
        ({ s with lastSelected := newSel }, some (handleAt dataPointsToUse newSel))
  else if direction == "v" && vm.sortedBy == "vertical" then
    let numberOfPoints : Int := vm.verticalDataPoints.length
    if numberOfPoints == 0 then (s, none)
    else if vm.horizontalDataPoints.length == 0 then
      if s.lastSelected + incrementalStep < 0 || s.lastSelected + incrementalStep > numberOfPoints - 1 then (s, none)
      else
        let newSel := s.lastSelected + incrementalStep
        ({ s with lastSelected := newSel }, some (handleAt dataPointsToUse newSel))
    else
      if s.lastSelected + incrementalStep * (uniqueHorizontalCount.length : Int) < 0 || s.lastSelected + incrementalStep * (uniqueHorizontalCount.length : Int) > numberOfPoints - 1 then (s, none)
      else
        let newSel := s.lastSelected + incrementalStep * (uniqueHorizontalCount.length : Int)
        ({ s with lastSelected := newSel }, some (handleAt dataPointsToUse newSel))
  else if direction == "h" && vm.sortedBy == "vertical" then
    let numberOfPoints : Int := vm.horizontalDataPoints.length
    if numberOfPoints == 0 then (s, none)
    else
      let currentGroup := s.lastSelected.fdiv (uniqueHorizontalCount.length : Int)
      let minGroup := currentGroup * (uniqueHorizontalCount.length : Int)
      let maxGroup := (currentGroup + 1) * (uniqueHorizontalCount.length : Int) - 1
      if s.lastSelected + incrementalStep < minGroup || s.lastSelected + incrementalStep > maxGroup then (s, none)
      else
        let newSel := s.lastSelected + incrementalStep
        ({ s with lastSelected := newSel }, some (handleAt dataPointsToUse newSel))
  else (s, none)

/-- Mirrors the four diagonal click handlers of the `Visual` constructor
(visual.ts lines 257-272): each issues `this.step("v", vSign)` followed by
`this.step("h", hSign)` on the mutated state, within one gesture.  Returns the
final state and the two selection-manager interactions in order. -/
def diagClick (s : VisualState) (vSign hSign : Int) : VisualState × (Option (Option Nat) × Option (Option Nat)) :=
  let r1 := step s "v" vSign
  let r2 := step r1.1 "h" hSign
  (r2.1, (r1.2, r2.2))

/-- A metadata column of `options.dataViews[0].metadata.columns`: which roles it
carries (`roles.hasOwnProperty('horizontalCategory' | 'verticalCategory')`) and
its display name. -/
structure MetaColumn where
  hasHorizontalRole : Bool
  hasVerticalRole : Bool
  displayName : String
deriving Repr, DecidableEq

/-- A categorical column of `dataViews[0].categorical.categories`: its source
display name and its ordered raw values (rendered to strings, as the source
does with `+ ''`). -/
structure CatColumn where
  displayName : String
  values : List String
deriving Repr, DecidableEq

/-- The `dataViews[0].metadata.objects` configuration object, restricted to the
four fields the visual reads; `none` models an absent field. -/
structure ConfigObjects where
  horizontal : Option Bool
  vertical : Option Bool
  diagonal : Option Bool
  incremental : Option Int
deriving Repr, DecidableEq

/-- Modelled from the spec: `getValue<T>(objects, objectName, propertyName,
defaultValue)` of the object-enumeration utility is not part of src/; per §6 it
reads the named field from the configuration object "with type and default
fallback".  For a `Bool` field: the configured value when present, the default
when absent. -/
def getValueBool (field : Option Bool) (defaultValue : Bool) : Bool :=
  field.getD defaultValue

/-- Modelled from the spec: `getValue<T>` for a numeric field (see
`getValueBool`); the configured value when present, the default when absent.
No range validation is part of the contract. -/
def getValueInt (field : Option Int) (defaultValue : Int) : Int :=
  field.getD defaultValue

/-- The settings-resolution block of `visualTransform` (visual.ts lines
133-140): each field read through `getValue` with its documented default. -/
def resolveSettings (objects : ConfigObjects) : VisualSettings :=
  { settings :=
    { horizontal := getValueBool objects.horizontal true
      vertical := getValueBool objects.vertical true
      diagonal := getValueBool objects.diagonal false
      incremental := getValueInt objects.incremental 1 } }

/-- The metadata scan of `visualTransform` (visual.ts lines 93-102): walk the
columns with index `i`, recording the display name of the last column carrying
each role (`if / else if`, horizontal checked first), and setting `sortedBy`
only when the role-tagged column sits at `i == 0`. -/
def scanMetaAux : List MetaColumn → Nat → String → String → String → String × String × String
  | [], _, hName, vName, sortedBy => (hName, vName, sortedBy)
  | col :: rest, i, hName, vName, sortedBy =>
    if col.hasHorizontalRole then
      scanMetaAux rest (i + 1) col.displayName vName (if i == 0 then "horizontal" else sortedBy)
    else if col.hasVerticalRole then
      scanMetaAux rest (i + 1) hName col.displayName (if i == 0 then "vertical" else sortedBy)
    else
      scanMetaAux rest (i + 1) hName vName sortedBy

/-- The category-matching loop of `visualTransform` (visual.ts lines 104-110):
walk the categorical columns with index `i`, matching display names against the
recorded axis names (`if / else if`, horizontal checked first); the last match
wins; `-1` when no match. -/
def scanCatsAux : List CatColumn → Nat → String → String → Int → Int → Int × Int
  | [], _, _, _, hIdx, vIdx => (hIdx, vIdx)
  | col :: rest, i, hName, vName, hIdx, vIdx =>
    if col.displayName == hName then
      scanCatsAux rest (i + 1) hName vName (Int.ofNat i) vIdx
    else if col.displayName == vName then
      scanCatsAux rest (i + 1) hName vName hIdx (Int.ofNat i)
    else
      scanCatsAux rest (i + 1) hName vName hIdx vIdx

/-- The data-point loops of `visualTransform` (visual.ts lines 160-182): one
`CategoryDataPoint` per raw value, with the opaque selection id produced by the
host builder for (that category column, row index). -/
def buildPoints (col : CatColumn) (colIdx : Nat) (mkId : Nat → Nat → Nat) : List CategoryDataPoint :=
  col.values.enum.map (fun iv => { category := iv.2, selectionId := mkId colIdx iv.1 })

/-- Mirrors `visualTransform` (visual.ts lines 83-191): scan metadata for axis
names and sort order, match categorical columns by display name, count present
axes, resolve settings, and build the per-axis data points.  `mkId` is the
host's selection-id builder (`createSelectionIdBuilder().withCategory(col, i)`),
keyed by the matched column index and the row index. -/
def visualTransform (metaCols : List MetaColumn) (cats : List CatColumn)
    (objects : ConfigObjects) (mkId : Nat → Nat → Nat) : ViewModel :=
  let scanned := scanMetaAux metaCols 0 "" "" ""
  let horizontalDisplayName := scanned.1
  let verticalDisplayName := scanned.2.1
  let sortedBy := scanned.2.2
  let idx := scanCatsAux cats 0 horizontalDisplayName verticalDisplayName (-1) (-1)
  let horizontalIdxInCategories := idx.1
  let verticalIdxInCategories := idx.2
  let numberOfAxis : Int :=
    (if horizontalIdxInCategories > -1 then 1 else 0) + (if verticalIdxInCategories > -1 then 1 else 0)
  let horizontalDataPoints :=
    if horizontalIdxInCategories > -1 then
      buildPoints ((cats.get? horizontalIdxInCategories.toNat).getD { displayName := "", values := [] }) horizontalIdxInCategories.toNat mkId
    else []
  let verticalDataPoints :=
    if verticalIdxInCategories > -1 then
      buildPoints ((cats.get? verticalIdxInCategories.toNat).getD { displayName := "", values := [] }) verticalIdxInCategories.toNat mkId
    else []
  { horizontalDataPoints := horizontalDataPoints
    verticalDataPoints := verticalDataPoints
    numberOfAxis := numberOfAxis
    sortedBy := sortedBy
    settings := resolveSettings objects }

/-- One element of the array returned by `Visual.enumerateObjectInstances`
(visual.ts lines 385-412): the four resolved settings plus the advertised
`validValues` number range for `incremental`. -/
structure ObjectInstance where
  objectName : String
  horizontal : Bool
  vertical : Bool
  diagonal : Bool
  incremental : Int
  incrementalMin : Int
  incrementalMax : Int
deriving Repr, DecidableEq

/-- Mirrors `Visual.enumerateObjectInstances` (visual.ts lines 385-412): for
the `settings` object it pushes one instance carrying the resolved fields and
a `validValues` range of `[1, 100]` for `incremental`; otherwise the empty
enumeration. -/
def enumerateObjectInstances (vs : VisualSettings) (objectName : String) : List ObjectInstance :=
  if objectName == "settings" then
    [{ objectName := objectName
       horizontal := vs.settings.horizontal
       vertical := vs.settings.vertical
       diagonal := vs.settings.diagonal
       incremental := vs.settings.incremental
       incrementalMin := 1
       incrementalMax := 100 }]
  else []

/-- The spec's concrete scenario (§8): horizontal `A A B B`, vertical `X Y X Y`,
sorted by horizontal, incremental 1; selection ids chosen pairwise distinct so
that the two axes' handles can be told apart. -/
def vmEx : ViewModel :=
  { horizontalDataPoints := [⟨"A", 10⟩, ⟨"A", 11⟩, ⟨"B", 12⟩, ⟨"B", 13⟩]
    verticalDataPoints := [⟨"X", 20⟩, ⟨"Y", 21⟩, ⟨"X", 22⟩, ⟨"Y", 23⟩]
    numberOfAxis := 2
    sortedBy := "horizontal"
    settings := { settings := { horizontal := true, vertical := true, diagonal := false, incremental := 1 } } }

/-- Three-row data whose last vertical group is incomplete: horizontal
`A A A`, vertical `X Y X` (two distinct vertical labels over three rows). -/
def vmBug : ViewModel :=
  { horizontalDataPoints := [⟨"A", 0⟩, ⟨"A", 1⟩, ⟨"A", 2⟩]
    verticalDataPoints := [⟨"X", 10⟩, ⟨"Y", 11⟩, ⟨"X", 12⟩]
    numberOfAxis := 2
    sortedBy := "horizontal"
    settings := { settings := { horizontal := true, vertical := true, diagonal := false, incremental := 1 } } }

/-- Both axes present and non-empty but with `sortedBy` left unset (no
role-tagged column at metadata position 0). -/
def vmNoSort : ViewModel :=
  { horizontalDataPoints := [⟨"A", 10⟩, ⟨"A", 11⟩, ⟨"B", 12⟩, ⟨"B", 13⟩]
    verticalDataPoints := [⟨"X", 20⟩, ⟨"Y", 21⟩, ⟨"X", 22⟩, ⟨"Y", 23⟩]
    numberOfAxis := 2
    sortedBy := ""
    settings := { settings := { horizontal := true, vertical := true, diagonal := false, incremental := 1 } } }

/-- A view model with the `incremental` setting replaced (the data and sort
order untouched), standing for a later configuration update between clicks. -/
def setIncremental (vm : ViewModel) (inc : Int) : ViewModel :=
  { vm with settings := { settings := { vm.settings.settings with incremental := inc } } }

/-- Run a sequence of vertical `step` calls from cursor `c`; each list entry
`(inc, k)` performs one call with the `incremental` setting set to `inc` and
the click sign `k`. -/
def vertRun (vm : ViewModel) : Int → List (Int × Int) → Int
  | c, [] => c
  | c, (inc, k) :: rest =>
    vertRun vm ((step ⟨setIncremental vm inc, c⟩ "v" k).1.lastSelected) rest

/-- One-axis scenario of the spec (§8): only the horizontal axis present, five
values, incremental 2. -/
def vmOne : ViewModel :=
  { horizontalDataPoints := [⟨"a", 0⟩, ⟨"b", 1⟩, ⟨"c", 2⟩, ⟨"d", 3⟩, ⟨"e", 4⟩]
    verticalDataPoints := []
    numberOfAxis := 1
    sortedBy := "horizontal"
    settings := { settings := { horizontal := true, vertical := true, diagonal := false, incremental := 2 } } }

lemma ediv_eq_of_between {a b g : Int} (hb : 0 < b) (h1 : g * b ≤ a) (h2 : a ≤ g * b + b - 1) :
    a / b = g := by
  have hmod := Int.ediv_add_emod a b
  have hr0 : 0 ≤ a % b := Int.emod_nonneg a (by omega)
  have hrb : a % b < b := Int.emod_lt_of_pos a hb
  have hub : b * (a / b) < b * (g + 1) := by nlinarith
  have hlb : b * g < b * (a / b + 1) := by nlinarith
  have h3 : a / b < g + 1 := lt_of_mul_lt_mul_left hub (le_of_lt hb)
  have h4 : g < a / b + 1 := lt_of_mul_lt_mul_left hlb (le_of_lt hb)
  omega

lemma fdiv_eq_of_between {a b g : Int} (hb : 0 < b) (h1 : g * b ≤ a) (h2 : a ≤ g * b + b - 1) :
    a.fdiv b = g := by
  rw [Int.fdiv_eq_ediv a (le_of_lt hb)]
  exact ediv_eq_of_between hb h1 h2

lemma fdiv_between {a b : Int} (hb : 0 < b) :
    (a.fdiv b) * b ≤ a ∧ a ≤ (a.fdiv b) * b + b - 1 := by
  rw [Int.fdiv_eq_ediv a (le_of_lt hb)]
  have hmod := Int.ediv_add_emod a b
  have hr0 : 0 ≤ a % b := Int.emod_nonneg a (by omega)
  have hrb : a % b < b := Int.emod_lt_of_pos a hb
  constructor <;> nlinarith

lemma uniqueCats_foldl_len_le (l : List CategoryDataPoint) (acc : List String) :
    acc.length ≤ (l.foldl (fun acc p => if acc.contains p.category then acc else acc ++ [p.category]) acc).length := by
  induction l generalizing acc with
  | nil => simp
  | cons p rest ih =>
    simp only [List.foldl]
    by_cases h : acc.contains p.category
    · rw [if_pos h]
      exact ih acc
    · rw [if_neg h]
      have h2 := ih (acc ++ [p.category])
      have h3 : acc.length ≤ (acc ++ [p.category]).length := by simp
      omega

lemma uniqueCats_len_pos (dps : List CategoryDataPoint) (hv : dps ≠ []) :
    1 ≤ (uniqueCats dps).length := by
  cases dps with
  | nil => exact absurd rfl hv
  | cons p rest =>
    have h2 := uniqueCats_foldl_len_le rest [p.category]
    simp only [List.length_cons, List.length_nil] at h2
    unfold uniqueCats
    simp only [List.foldl]
    have h3 : (if ([] : List String).contains p.category then ([] : List String) else [] ++ [p.category]) = [p.category] := by simp
    rw [h3]
    omega

lemma uvOf_pos (vm : ViewModel) (hv : vm.verticalDataPoints ≠ []) : 0 < uvOf vm := by
  unfold uvOf
  have := uniqueCats_len_pos vm.verticalDataPoints hv
  omega

lemma uhOf_pos (vm : ViewModel) (hh : vm.horizontalDataPoints ≠ []) : 0 < uhOf vm := by
  unfold uhOf
  have := uniqueCats_len_pos vm.horizontalDataPoints hh
  omega

lemma step_v_sortedH_eq (vm : ViewModel) (c k : Int)
    (hs : vm.sortedBy = "horizontal")
    (hv : vm.verticalDataPoints ≠ []) :
    step ⟨vm, c⟩ "v" k =
      if c + vm.settings.settings.incremental * k < (c.fdiv (uvOf vm)) * uvOf vm
         ∨ c + vm.settings.settings.incremental * k > (c.fdiv (uvOf vm) + 1) * uvOf vm - 1
      then (⟨vm, c⟩, none)
      else (⟨vm, c + vm.settings.settings.incremental * k⟩,
            some (handleAt vm.horizontalDataPoints (c + vm.settings.settings.incremental * k))) := by
  have hlen : vm.verticalDataPoints.length ≠ 0 := by
    simpa [List.length_eq_zero] using hv
  simp only [step, hs, uvOf]
  simp [hlen, Int.natCast_eq_zero]

lemma step_h_sortedH_eq (vm : ViewModel) (c k : Int)
    (hs : vm.sortedBy = "horizontal")
    (hh : vm.horizontalDataPoints ≠ [])
    (hv : vm.verticalDataPoints ≠ []) :
    step ⟨vm, c⟩ "h" k =
      if c + vm.settings.settings.incremental * k * uvOf vm < 0
         ∨ c + vm.settings.settings.incremental * k * uvOf vm > (vm.horizontalDataPoints.length : Int) - 1
      then (⟨vm, c⟩, none)
      else (⟨vm, c + vm.settings.settings.incremental * k * uvOf vm⟩,
            some (handleAt vm.horizontalDataPoints (c + vm.settings.settings.incremental * k * uvOf vm))) := by
  have hlenh : vm.horizontalDataPoints.length ≠ 0 := by
    simpa [List.length_eq_zero] using hh
  have hlenv : vm.verticalDataPoints.length ≠ 0 := by
    simpa [List.length_eq_zero] using hv
  simp only [step, hs, uvOf]
  simp [hlenh, hlenv, Int.natCast_eq_zero]

lemma step_h_sortedH_noV_eq (vm : ViewModel) (c k : Int)
    (hs : vm.sortedBy = "horizontal")
    (hh : vm.horizontalDataPoints ≠ [])
    (hv : vm.verticalDataPoints = []) :
    step ⟨vm, c⟩ "h" k =
      if c + vm.settings.settings.incremental * k < 0
         ∨ c + vm.settings.settings.incremental * k > (vm.horizontalDataPoints.length : Int) - 1
      then (⟨vm, c⟩, none)
      else (⟨vm, c + vm.settings.settings.incremental * k⟩,
            some (handleAt vm.horizontalDataPoints (c + vm.settings.settings.incremental * k))) := by
  have hlenh : vm.horizontalDataPoints.length ≠ 0 := by
    simpa [List.length_eq_zero] using hh
  simp only [step, hs, hv]
  simp [hlenh, Int.natCast_eq_zero]

lemma step_v_sortedV_eq (vm : ViewModel) (c k : Int)
    (hs : vm.sortedBy = "vertical")
    (hh : vm.horizontalDataPoints ≠ [])
    (hv : vm.verticalDataPoints ≠ []) :
    step ⟨vm, c⟩ "v" k =
      if c + vm.settings.settings.incremental * k * uhOf vm < 0
         ∨ c + vm.settings.settings.incremental * k * uhOf vm > (vm.verticalDataPoints.length : Int) - 1
      then (⟨vm, c⟩, none)
      else (⟨vm, c + vm.settings.settings.incremental * k * uhOf vm⟩,
            some (handleAt vm.verticalDataPoints (c + vm.settings.settings.incremental * k * uhOf vm))) := by
  have hlenh : vm.horizontalDataPoints.length ≠ 0 := by
    simpa [List.length_eq_zero] using hh
  have hlenv : vm.verticalDataPoints.length ≠ 0 := by
    simpa [List.length_eq_zero] using hv
  simp only [step, hs, uhOf]
  simp [hlenh, hlenv, Int.natCast_eq_zero]

lemma step_v_sortedV_noH_eq (vm : ViewModel) (c k : Int)
    (hs : vm.sortedBy = "vertical")
    (hh : vm.horizontalDataPoints = [])
    (hv : vm.verticalDataPoints ≠ []) :
    step ⟨vm, c⟩ "v" k =
      if c + vm.settings.settings.incremental * k < 0
         ∨ c + vm.settings.settings.incremental * k > (vm.verticalDataPoints.length : Int) - 1
      then (⟨vm, c⟩, none)
      else (⟨vm, c + vm.settings.settings.incremental * k⟩,
            some (handleAt vm.verticalDataPoints (c + vm.settings.settings.incremental * k))) := by
  have hlenv : vm.verticalDataPoints.length ≠ 0 := by
    simpa [List.length_eq_zero] using hv
  simp only [step, hs, hh]
  simp [hlenv, Int.natCast_eq_zero]

lemma step_h_sortedV_eq (vm : ViewModel) (c k : Int)
    (hs : vm.sortedBy = "vertical")
    (hh : vm.horizontalDataPoints ≠ []) :
    step ⟨vm, c⟩ "h" k =
      if c + vm.settings.settings.incremental * k < (c.fdiv (uhOf vm)) * uhOf vm
         ∨ c + vm.settings.settings.incremental * k > (c.fdiv (uhOf vm) + 1) * uhOf vm - 1
      then (⟨vm, c⟩, none)
      else (⟨vm, c + vm.settings.settings.incremental * k⟩,
            some (handleAt vm.verticalDataPoints (c + vm.settings.settings.incremental * k))) := by
  have hlenh : vm.horizontalDataPoints.length ≠ 0 := by
    simpa [List.length_eq_zero] using hh
  simp only [step, hs, uhOf]
  simp [hlenh, Int.natCast_eq_zero]

lemma step_v_noop_of_empty (s : VisualState) (k : Int)
    (hv : s.viewModel.verticalDataPoints = []) :
    step s "v" k = (s, none) := by
  simp [step, hv]

lemma step_h_noop_of_empty (s : VisualState) (k : Int)
    (hh : s.viewModel.horizontalDataPoints = []) :
    step s "h" k = (s, none) := by
  by_cases hsv : s.viewModel.sortedBy = "horizontal"
  · simp [step, hsv, hh]
  · by_cases hsv2 : s.viewModel.sortedBy = "vertical"
    · simp [step, hsv2, hh]
    · simp [step, hsv, hsv2]

lemma step_noop_of_empty_axes (s : VisualState) (d : String) (k : Int)
    (hh : s.viewModel.horizontalDataPoints = [])
    (hv : s.viewModel.verticalDataPoints = []) :
    step s d k = (s, none) := by
  simp [step, hh, hv]

lemma step_noop_of_unsorted (s : VisualState) (d : String) (k : Int)
    (h : s.viewModel.sortedBy = "") :
    step s d k = (s, none) := by
  simp [step, h]

lemma step_noop_other_dir (s : VisualState) (d : String) (k : Int)
    (h1 : d ≠ "v") (h2 : d ≠ "h") :
    step s d k = (s, none) := by
  simp [step, h1, h2]

lemma step_noop_other_sort (s : VisualState) (d : String) (k : Int)
    (h1 : s.viewModel.sortedBy ≠ "horizontal") (h2 : s.viewModel.sortedBy ≠ "vertical") :
    step s d k = (s, none) := by
  simp [step, h1, h2]

lemma step_shape (s : VisualState) (d : String) (k : Int) :
    step s d k = (s, none) ∨ ∃ x y, step s d k = ({ s with lastSelected := x }, some y) := by
  obtain ⟨vm, c⟩ := s
  by_cases hdv : d = "v"
  · subst hdv
    by_cases hsh : vm.sortedBy = "horizontal"
    · by_cases hv : vm.verticalDataPoints = []
      · left; exact step_v_noop_of_empty ⟨vm, c⟩ k hv
      · rw [step_v_sortedH_eq vm c k hsh hv]
        split_ifs with hC
        · left; rfl
        · right; exact ⟨_, _, rfl⟩
    · by_cases hsv : vm.sortedBy = "vertical"
      · by_cases hv : vm.verticalDataPoints = []
        · left; exact step_v_noop_of_empty ⟨vm, c⟩ k hv
        · by_cases hh : vm.horizontalDataPoints = []
          · rw [step_v_sortedV_noH_eq vm c k hsv hh hv]
            split_ifs with hC
            · left; rfl
            · right; exact ⟨_, _, rfl⟩
          · rw [step_v_sortedV_eq vm c k hsv hh hv]
            split_ifs with hC
            · left; rfl
            · right; exact ⟨_, _, rfl⟩
      · left; exact step_noop_other_sort ⟨vm, c⟩ "v" k hsh hsv
  · by_cases hdh : d = "h"
    · subst hdh
      by_cases hh : vm.horizontalDataPoints = []
      · left; exact step_h_noop_of_empty ⟨vm, c⟩ k hh
      · by_cases hsh : vm.sortedBy = "horizontal"
        · by_cases hv : vm.verticalDataPoints = []
          · rw [step_h_sortedH_noV_eq vm c k hsh hh hv]
            split_ifs with hC
            · left; rfl
            · right; exact ⟨_, _, rfl⟩
          · rw [step_h_sortedH_eq vm c k hsh hh hv]
            split_ifs with hC
            · left; rfl
            · right; exact ⟨_, _, rfl⟩
        · by_cases hsv : vm.sortedBy = "vertical"
          · rw [step_h_sortedV_eq vm c k hsv hh]
            split_ifs with hC
            · left; rfl
            · right; exact ⟨_, _, rfl⟩
          · left; exact step_noop_other_sort ⟨vm, c⟩ "h" k hsh hsv
    · left; exact step_noop_other_dir ⟨vm, c⟩ d k hdv hdh

lemma step_none_fixed (s : VisualState) (d : String) (k : Int)
    (h : (step s d k).2 = none) : step s d k = (s, none) := by
  rcases step_shape s d k with heq | ⟨x, y, heq⟩
  · exact heq
  · rw [heq] at h
    exact absurd h (by simp)

lemma stepV_fdiv_const (vm : ViewModel) (c k : Int)
    (hs : vm.sortedBy = "horizontal")
    (hv : vm.verticalDataPoints ≠ []) :
    ((step ⟨vm, c⟩ "v" k).1.lastSelected).fdiv (uvOf vm) = c.fdiv (uvOf vm) := by
  have huv : 0 < uvOf vm := uvOf_pos vm hv
  rw [step_v_sortedH_eq vm c k hs hv]
  split_ifs with hC
  · rfl
  · push_neg at hC
    obtain ⟨h1, h2⟩ := hC
    have h2b : c + vm.settings.settings.incremental * k
        ≤ (c.fdiv (uvOf vm)) * uvOf vm + uvOf vm - 1 := by
      have he : (c.fdiv (uvOf vm) + 1) * uvOf vm
          = (c.fdiv (uvOf vm)) * uvOf vm + uvOf vm := by ring
      omega
    exact fdiv_eq_of_between huv h1 h2b

lemma vertRun_fdiv_const (vm : ViewModel)
    (hs : vm.sortedBy = "horizontal") (hv : vm.verticalDataPoints ≠ []) :
    ∀ (l : List (Int × Int)) (c : Int), (vertRun vm c l).fdiv (uvOf vm) = c.fdiv (uvOf vm) := by
  intro l
  induction l with
  | nil => intro c; rfl
  | cons p rest ih =>
    intro c
    obtain ⟨inc, k⟩ := p
    rw [vertRun, ih]
    exact stepV_fdiv_const (setIncremental vm inc) c k hs hv

lemma visualTransform_axes_empty_of_zero (metaCols : List MetaColumn) (cats : List CatColumn)
    (objects : ConfigObjects) (mkId : Nat → Nat → Nat)
    (h : (visualTransform metaCols cats objects mkId).numberOfAxis = 0) :
    (visualTransform metaCols cats objects mkId).horizontalDataPoints = [] ∧
    (visualTransform metaCols cats objects mkId).verticalDataPoints = [] := by
  simp only [visualTransform] at h ⊢
  split_ifs at h ⊢ <;> simp_all

lemma scanMetaAux_sortedBy_const (cols : List MetaColumn) :
    ∀ (i : Nat) (hN vN sB : String), i ≠ 0 → (scanMetaAux cols i hN vN sB).2.2 = sB := by
  induction cols with
  | nil => intro i hN vN sB hi; rfl
  | cons c rest ih =>
    intro i hN vN sB hi
    have hz : (i == 0) = false := by simpa using hi
    rw [scanMetaAux]
    simp only [hz, Bool.false_eq_true, if_false]
    split_ifs with h1 h2
    · exact ih (i + 1) _ _ _ (by omega)
    · exact ih (i + 1) _ _ _ (by omega)
    · exact ih (i + 1) _ _ _ (by omega)

lemma visualTransform_sortedBy_char (metaCols : List MetaColumn) (cats : List CatColumn)
    (objects : ConfigObjects) (mkId : Nat → Nat → Nat) :
    (visualTransform metaCols cats objects mkId).sortedBy =
      match metaCols with
      | [] => ""
      | col :: _ =>
        if col.hasHorizontalRole then "horizontal"
        else if col.hasVerticalRole then "vertical"
        else "" := by
  simp only [visualTransform]
  cases metaCols with
  | nil => rfl
  | cons col rest =>
    rw [scanMetaAux]
    by_cases h1 : col.hasHorizontalRole
    · rw [if_pos h1, scanMetaAux_sortedBy_const rest 1 _ _ _ Nat.one_ne_zero]
      simp [h1]
    · by_cases h2 : col.hasVerticalRole
      · rw [if_neg h1, if_pos h2, scanMetaAux_sortedBy_const rest 1 _ _ _ Nat.one_ne_zero]
        simp [h1, h2]
      · rw [if_neg h1, if_neg h2, scanMetaAux_sortedBy_const rest 1 _ _ _ Nat.one_ne_zero]
        simp [h1, h2]

/-- C1, counterexample: at the spec's own scenario (`vmEx`, cursor 0, vertical
step `+1`) the cursor becomes `0 + 1` as claimed, but the activated handle is
`horizontalDataPoints[1]` (`dataPointsToUse` is chosen by `sortedBy`,
visual.ts line 326), not `verticalDataPoints[1]` as the claim states. -/
theorem step_vertical_handle_cex :
    (step ⟨vmEx, 0⟩ "v" 1).1.lastSelected = 0 + 1 ∧
    (step ⟨vmEx, 0⟩ "v" 1).2 = some (handleAt vmEx.horizontalDataPoints 1) ∧
    (step ⟨vmEx, 0⟩ "v" 1).2 ≠ some (handleAt vmEx.verticalDataPoints 1) := by
  decide

/-- C1, amended: for a view model with `sortedBy = "horizontal"` and a
non-empty vertical axis, a vertical step that passes the group-bounds check
sets the cursor to `cursor + displacement` and activates the handle stored at
index `cursor'` of the HORIZONTAL axis's data points (the array selected by
`sortedBy`), not of the vertical one. -/
theorem step_vertical_sortedH_cursor_and_handle (vm : ViewModel) (c k : Int)
    (hs : vm.sortedBy = "horizontal")
    (hv : vm.verticalDataPoints ≠ [])
    (hmin : (c.fdiv (uvOf vm)) * uvOf vm ≤ c + vm.settings.settings.incremental * k)
    (hmax : c + vm.settings.settings.incremental * k ≤ (c.fdiv (uvOf vm) + 1) * uvOf vm - 1) :
    step ⟨vm, c⟩ "v" k =
      (⟨vm, c + vm.settings.settings.incremental * k⟩,
       some (handleAt vm.horizontalDataPoints (c + vm.settings.settings.incremental * k))) := by
  rw [step_v_sortedH_eq vm c k hs hv]
  rw [if_neg]
  push_neg
  exact ⟨hmin, hmax⟩

/-- Witness for C1's amended theorem at the spec scenario. -/
theorem step_vertical_sortedH_cursor_and_handle_witness :
    step ⟨vmEx, 0⟩ "v" 1 =
      (⟨vmEx, 0 + vmEx.settings.settings.incremental * 1⟩,
       some (handleAt vmEx.horizontalDataPoints (0 + vmEx.settings.settings.incremental * 1))) :=
  step_vertical_sortedH_cursor_and_handle vmEx 0 1 rfl (by decide) (by decide) (by decide)

/-- C2, counterexample: a configuration with `incremental = 500` resolves to
`500`, which is outside `[1, 100]` and is not replaced by the default `1`;
the resolver (visual.ts lines 133-140) performs no range validation. -/
theorem incremental_out_of_range_cex :
    (resolveSettings { horizontal := none, vertical := none, diagonal := none, incremental := some 500 }).settings.incremental = 500 ∧
    ¬(1 ≤ (resolveSettings { horizontal := none, vertical := none, diagonal := none, incremental := some 500 }).settings.incremental ∧
      (resolveSettings { horizontal := none, vertical := none, diagonal := none, incremental := some 500 }).settings.incremental ≤ 100) := by
  decide

/-- C2, amended: for every configuration object, the resolved `incremental`
equals the configured value when the field is present and defaults to `1` when
it is missing; the range `[1, 100]` is only advertised to the property pane as
`validValues` by `enumerateObjectInstances`, not enforced on the resolved
value. -/
theorem incremental_resolution (metaCols : List MetaColumn) (cats : List CatColumn)
    (objects : ConfigObjects) (mkId : Nat → Nat → Nat) :
    (visualTransform metaCols cats objects mkId).settings.settings.incremental = objects.incremental.getD 1 ∧
    ((enumerateObjectInstances (visualTransform metaCols cats objects mkId).settings "settings").map
        (fun o => (o.incrementalMin, o.incrementalMax))) = [(1, 100)] :=
  ⟨rfl, rfl⟩

/-- C3 (confirmed): for `sortedBy = "horizontal"` with a non-empty vertical
axis, any sequence of vertical steps — each with its own incremental setting
and sign — starting at cursor `c` stays inside the group interval
`[floor(c/uv)*uv, floor(c/uv)*uv + uv - 1]`. -/
theorem vertical_group_containment (vm : ViewModel) (c : Int) (l : List (Int × Int))
    (hs : vm.sortedBy = "horizontal")
    (hv : vm.verticalDataPoints ≠ []) :
    (c.fdiv (uvOf vm)) * uvOf vm ≤ vertRun vm c l ∧
    vertRun vm c l ≤ (c.fdiv (uvOf vm)) * uvOf vm + uvOf vm - 1 := by
  have huv := uvOf_pos vm hv
  have hfd := vertRun_fdiv_const vm hs hv l c
  have hb := fdiv_between (a := vertRun vm c l) huv
  rw [hfd] at hb
  exact hb

/-- Witness for C3 at the spec scenario: two vertical `+1` steps from cursor 0
(the second is rejected) stay inside the group `[0, 1]`. -/
theorem vertical_group_containment_witness :
    ((0 : Int).fdiv (uvOf vmEx)) * uvOf vmEx ≤ vertRun vmEx 0 [(1, 1), (1, 1)] ∧
    vertRun vmEx 0 [(1, 1), (1, 1)] ≤ ((0 : Int).fdiv (uvOf vmEx)) * uvOf vmEx + uvOf vmEx - 1 :=
  vertical_group_containment vmEx 0 [(1, 1), (1, 1)] rfl (by decide)

/-- C4 (confirmed): with both axes present and `sortedBy = "horizontal"`, one
horizontal step of sign `sg` with resolved incremental `k` moves the cursor by
exactly `k * sg * uv` when the target lies inside `[0, H-1]` (with `H` the raw
horizontal axis length), and leaves it unchanged otherwise. -/
theorem horizontal_step_scaling (vm : ViewModel) (c sg : Int)
    (hs : vm.sortedBy = "horizontal")
    (hh : vm.horizontalDataPoints ≠ [])
    (hv : vm.verticalDataPoints ≠ []) :
    (step ⟨vm, c⟩ "h" sg).1.lastSelected =
      if 0 ≤ c + vm.settings.settings.incremental * sg * uvOf vm
         ∧ c + vm.settings.settings.incremental * sg * uvOf vm ≤ (vm.horizontalDataPoints.length : Int) - 1
      then c + vm.settings.settings.incremental * sg * uvOf vm
      else c := by
  rw [step_h_sortedH_eq vm c sg hs hh hv]
  split_ifs with h1 h2 <;> first
    | rfl
    | (exfalso; omega)

/-- Witness for C4 at the spec scenario: from cursor 1, a horizontal `+1` with
incremental 1 and `uv = 2` lands on `1 + 1*1*2 = 3`. -/
theorem horizontal_step_scaling_witness :
    (step ⟨vmEx, 1⟩ "h" 1).1.lastSelected =
      if 0 ≤ 1 + vmEx.settings.settings.incremental * 1 * uvOf vmEx
         ∧ 1 + vmEx.settings.settings.incremental * 1 * uvOf vmEx ≤ (vmEx.horizontalDataPoints.length : Int) - 1
      then 1 + vmEx.settings.settings.incremental * 1 * uvOf vmEx
      else 1 :=
  horizontal_step_scaling vmEx 1 1 rfl (by decide) (by decide)

/-- C5 (confirmed): a `step` call that makes no selection-service call leaves
the whole state unchanged, and retrying the same rejected call any number of
times still leaves the cursor unchanged. -/
theorem step_rejection_idempotent (s : VisualState) (d : String) (k : Int) (n : Nat)
    (h : (step s d k).2 = none) :
    (step s d k).1 = s ∧ (fun st => (step st d k).1)^[n] s = s := by
  have h1 : step s d k = (s, none) := step_none_fixed s d k h
  constructor
  · rw [h1]
  · apply Function.iterate_fixed
    show (step s d k).1 = s
    rw [h1]

/-- Witness for C5: from cursor 1 in the spec scenario a vertical `+1` is
rejected (it would leave the group `[0, 1]`); five retries leave cursor 1. -/
theorem step_rejection_idempotent_witness :
    (step ⟨vmEx, 1⟩ "v" 1).1 = ⟨vmEx, 1⟩ ∧
    (fun st => (step st "v" 1).1)^[5] ⟨vmEx, 1⟩ = ⟨vmEx, 1⟩ :=
  step_rejection_idempotent ⟨vmEx, 1⟩ "v" 1 5 (by decide)

/-- C6 (confirmed): a view model built by `visualTransform` with
`numberOfAxis = 0` makes every `step` call a no-op, and in general a step in a
direction whose addressed axis is empty is a no-op (cursor unchanged, no
selection-service call). -/
theorem step_noop_no_axes (metaCols : List MetaColumn) (cats : List CatColumn)
    (objects : ConfigObjects) (mkId : Nat → Nat → Nat) (c k : Int) (d : String) (s : VisualState)
    (h0 : (visualTransform metaCols cats objects mkId).numberOfAxis = 0)
    (hv : d = "v" → s.viewModel.verticalDataPoints = [])
    (hh : d = "h" → s.viewModel.horizontalDataPoints = []) :
    step ⟨visualTransform metaCols cats objects mkId, c⟩ d k
        = (⟨visualTransform metaCols cats objects mkId, c⟩, none) ∧
    ((d = "v" ∨ d = "h") → step s d k = (s, none)) := by
  obtain ⟨hH, hV⟩ := visualTransform_axes_empty_of_zero metaCols cats objects mkId h0
  constructor
  · exact step_noop_of_empty_axes ⟨visualTransform metaCols cats objects mkId, c⟩ d k hH hV
  · rintro (rfl | rfl)
    · exact step_v_noop_of_empty s k (hv rfl)
    · exact step_h_noop_of_empty s k (hh rfl)

/-- Witness for C6: no category columns at all (`numberOfAxis = 0`), and the
one-axis model `vmOne` whose vertical axis is empty rejects vertical steps. -/
theorem step_noop_no_axes_witness :
    step ⟨visualTransform [] [] ⟨none, none, none, none⟩ (fun _ _ => 0), 0⟩ "v" 1
        = (⟨visualTransform [] [] ⟨none, none, none, none⟩ (fun _ _ => 0), 0⟩, none) ∧
    (("v" = "v" ∨ "v" = "h") → step ⟨vmOne, 0⟩ "v" 1 = (⟨vmOne, 0⟩, none)) :=
  step_noop_no_axes [] [] ⟨none, none, none, none⟩ (fun _ _ => 0) 0 1 "v" ⟨vmOne, 0⟩
    (by decide) (fun _ => rfl) (fun h => absurd h (by decide))

/-- C7 (confirmed): `visualTransform` sets `sortedBy` solely from metadata
position 0 — `"horizontal"` or `"vertical"` exactly when the first column
carries that role (horizontal checked first), and unset (`""`) when the first
column carries no role or no columns exist; role-tagged columns at later
positions never establish or override it. -/
theorem sortedBy_from_position_zero (metaCols : List MetaColumn) (cats : List CatColumn)
    (objects : ConfigObjects) (mkId : Nat → Nat → Nat) :
    (visualTransform metaCols cats objects mkId).sortedBy =
      match metaCols with
      | [] => ""
      | col :: _ =>
        if col.hasHorizontalRole then "horizontal"
        else if col.hasVerticalRole then "vertical"
        else "" :=
  visualTransform_sortedBy_char metaCols cats objects mkId

/-- C8 (confirmed): with both axes enabled and non-empty, a diagonal click is
exactly one vertical step followed by one horizontal step on the intermediate
state — same end state, and each sub-step's selection interaction is that of
its independent `step` call. -/
theorem diagonal_composition (s : VisualState) (vSign hSign : Int)
    (_henH : s.viewModel.settings.settings.horizontal = true)
    (_henV : s.viewModel.settings.settings.vertical = true)
    (_hh : s.viewModel.horizontalDataPoints ≠ [])
    (_hv : s.viewModel.verticalDataPoints ≠ []) :
    (diagClick s vSign hSign).1 = (step (step s "v" vSign).1 "h" hSign).1 ∧
    (diagClick s vSign hSign).2.1 = (step s "v" vSign).2 ∧
    (diagClick s vSign hSign).2.2 = (step (step s "v" vSign).1 "h" hSign).2 :=
  ⟨rfl, rfl, rfl⟩

/-- Witness for C8 at the spec scenario (diagonal NE from cursor 0:
vertical `+1` to 1, then horizontal `+1` to 3). -/
theorem diagonal_composition_witness :
    (diagClick ⟨vmEx, 0⟩ 1 1).1 = (step (step ⟨vmEx, 0⟩ "v" 1).1 "h" 1).1 ∧
    (diagClick ⟨vmEx, 0⟩ 1 1).2.1 = (step ⟨vmEx, 0⟩ "v" 1).2 ∧
    (diagClick ⟨vmEx, 0⟩ 1 1).2.2 = (step (step ⟨vmEx, 0⟩ "v" 1).1 "h" 1).2 :=
  diagonal_composition ⟨vmEx, 0⟩ 1 1 rfl rfl (by decide) (by decide)

/-- C9 (code bug): with the perfectly well-formed 3-row data of `vmBug`
(horizontal `A A A`, vertical `X Y X`, so `uv = 2` and the last group is
incomplete), a horizontal `+1` from 0 reaches cursor 2, and a vertical `+1`
from 2 passes the group-bounds check (group `[2, 3]`), mutates the cursor to
3, and then reads `horizontalDataPoints[3]` — past the end of the 3-element
array chosen by `sortedBy` (the `some none` selection result below), which in
the source is `undefined` and a TypeError at the `.selectionId` projection. -/
theorem step_group_bound_overruns_array :
    (step ⟨vmBug, 0⟩ "h" 1).1.lastSelected = 2 ∧
    step ⟨vmBug, 2⟩ "v" 1 = (⟨vmBug, 3⟩, some none) ∧
    vmBug.horizontalDataPoints.length = 3 ∧
    vmBug.sortedBy = "horizontal" := by
  decide

/-- C10 (confirmed): a state whose view model has `sortedBy` unset (`""`, which
`visualTransform` produces whenever metadata position 0 carries no role tag)
makes every `step` call in either direction a no-op, even with both axes
present and non-empty. -/
theorem unsorted_viewModel_step_noop (s : VisualState) (d : String) (k : Int)
    (metaCols : List MetaColumn) (cats : List CatColumn)
    (objects : ConfigObjects) (mkId : Nat → Nat → Nat)
    (h : s.viewModel.sortedBy = "")
    (hm : (metaCols.head?.map (fun col => col.hasHorizontalRole || col.hasVerticalRole)).getD false = false) :
    step s d k = (s, none) ∧
    (visualTransform metaCols cats objects mkId).sortedBy = "" := by
  constructor
  · exact step_noop_of_unsorted s d k h
  · rw [visualTransform_sortedBy_char]
    cases metaCols with
    | nil => rfl
    | cons col rest =>
      have hm2 : col.hasHorizontalRole = false ∧ col.hasVerticalRole = false := by
        simpa using hm
      simp [hm2.1, hm2.2]

/-- Witness for C10: `vmNoSort` has both axes non-empty but `sortedBy = ""`;
a vertical `+1` from cursor 0 is a no-op, and a metadata list whose first
column carries no role yields `sortedBy = ""`. -/
theorem unsorted_viewModel_step_noop_witness :
    step ⟨vmNoSort, 0⟩ "v" 1 = (⟨vmNoSort, 0⟩, none) ∧
    (visualTransform [⟨false, false, "N"⟩] [] ⟨none, none, none, none⟩ (fun _ _ => 0)).sortedBy = "" :=
  unsorted_viewModel_step_noop ⟨vmNoSort, 0⟩ "v" 1 [⟨false, false, "N"⟩] [] ⟨none, none, none, none⟩
    (fun _ _ => 0) rfl (by decide)
